import Mathlib

/-!
Verification of the box API client's token lifecycle (src/client.go) and of
the file-upload response handling (src/files.go).

The Go code is embedded shallowly: time instants and durations are whole
seconds carried as `Int`; every external effect performed by a function
(random nonce generation, key file read, PEM parse, JWT signing, the HTTP
POST to the token endpoint, JSON decoding, the wire requests made by
`http.DefaultClient.Do`) is supplied as a field of an explicit environment
record, and the mutation of the receiver `*Client` is modelled by returning
the updated `Client` value.  Each definition carries a reference to the
source lines it embeds.
-/

namespace Box

/-- Package-level default grant type (src/client.go line 17). -/
def GrantType : String := "urn:ietf:params:oauth:grant-type:jwt-bearer"

/-- Package-level default API base URL (src/client.go line 18). -/
def APIBaseURL : String := "https://api.box.com/2.0"

/-- Package-level token endpoint URL (src/client.go line 19). -/
def APITokenURL : String := "https://api.box.com/oauth2/token"

/-- Go struct `OauthTokenResponse` (src/client.go lines 33-38). -/
structure OauthTokenResponse where
  AccessToken : String
  ExpiresIn : Int
  RestrictedTo : List String
  TokenType : String
  deriving DecidableEq, Repr

/-- Go struct `Client` (src/client.go lines 21-31).  `lastTokenRetrieved`
(a `*time.Time` in the source) is modelled as an optional instant in whole
seconds. -/
structure Client where
  ClientID : String
  clientSecret : String
  EnterpriseID : String
  JWTKeyID : String
  RSAPrivateKeyPemFilePath : String
  GrantType : String
  APIBaseURL : String
  lastToken : Option OauthTokenResponse
  lastTokenRetrieved : Option Int
  deriving DecidableEq, Repr

/-- Go func `NewClient` (src/client.go lines 40-50).  The Go function
returns `(*Client, error)`; the error component (always `nil` in the source)
is modelled as `Option String`. -/
def NewClient (clientID clientsecret enterpriseID jWTKeyID
    rSAPrivateKeyPemFilePath : String) : Client × Option String :=
  ({ ClientID := clientID
     clientSecret := clientsecret
     EnterpriseID := enterpriseID
     JWTKeyID := jWTKeyID
     RSAPrivateKeyPemFilePath := rSAPrivateKeyPemFilePath
     GrantType := Box.GrantType
     APIBaseURL := Box.APIBaseURL
     lastToken := none
     lastTokenRetrieved := none }, none)

/-- The parts of Go's `http.Response` this package reads: `StatusCode`, the
status line `Status`, and the body read into a string. -/
structure HttpResponse where
  statusCode : Int
  status : String
  body : String
  deriving DecidableEq, Repr

/-- Header of the JWT assertion: `jwt.NewWithClaims(jwt.SigningMethodRS256, …)`
sets `alg` to `"RS256"` and `typ` to `"JWT"`; src/client.go line 76 then sets
`kid` to the client's key identifier. -/
structure AssertionHeader where
  alg : String
  typ : String
  kid : String
  deriving DecidableEq, Repr

/-- Claim set of the JWT assertion (src/client.go lines 64-73).
`boxSubType` is the `"box_sub_type"` claim; `exp` is a unix timestamp in
seconds. -/
structure AssertionClaims where
  iss : String
  sub : String
  boxSubType : String
  aud : String
  jti : String
  exp : Int
  deriving DecidableEq, Repr

/-- The assertion header built by `refreshAccessToken`
(src/client.go lines 64 and 76). -/
def assertionHeader (c : Client) : AssertionHeader :=
  { alg := "RS256", typ := "JWT", kid := c.JWTKeyID }

/-- The assertion claims built by `refreshAccessToken`
(src/client.go lines 64-73): `now` is the `time.Now()` reading of line 70,
so `exp` is that instant plus 30 seconds. -/
def assertionClaims (c : Client) (jwtNonce : String) (now : Int) :
    AssertionClaims :=
  { iss := c.ClientID
    sub := c.EnterpriseID
    boxSubType := "enterprise"
    aud := APITokenURL
    jti := jwtNonce
    exp := now + 30 }

/-- The `url.Values` form POSTed to the token endpoint
(src/client.go lines 96-101). -/
structure TokenRequestForm where
  grantType : String
  clientID : String
  clientSecret : String
  assertion : String
  deriving DecidableEq, Repr

/-- Models Go's `strings.TrimSpace` (src/client.go line 109): the input with
all leading and trailing whitespace characters removed. -/
def trimSpace (s : String) : String :=
  ⟨((s.data.dropWhile Char.isWhitespace).reverse.dropWhile
    Char.isWhitespace).reverse⟩

/-- The distinct error returns of `refreshAccessToken` (all of type `error`
in Go, distinguished here by the return site that produced them):
nonce generation (line 59), key file read (line 81), PEM parse (line 85),
the POST transport error (line 103), the non-200 status error carrying the
status code and trimmed body (line 111), the JSON decode error (line 123),
and the blank-access-token error carrying the body (line 126). -/
inductive RefreshError where
  | nonceErr (msg : String)
  | keyReadErr (msg : String)
  | keyParseErr (msg : String)
  | transportErr (msg : String)
  | tokenExchangeErr (status : Int) (body : String)
  | jsonDecodeErr (msg : String)
  | emptyTokenErr (body : String)
  deriving DecidableEq, Repr

/-- Outcomes of the external effects of one `refreshAccessToken` call.
`tokenRequested` is the `time.Now()` of line 54 and `claimNow` the
`time.Now()` of line 70.  `nonce` models `GenerateRandomString(32)`
(defined elsewhere in the package, outside src/); `readKeyFile` models
`ioutil.ReadFile` of the key path; `parseKey` models
`jwt.ParseRSAPrivateKeyFromPEM` (the parsed key itself modelled as a
string); `signedString` models `token.SignedString(privateKey)` applied to
the built header and claims; `postForm` models `http.PostForm(APITokenURL, …)`;
`decodeToken` models `json.Unmarshal` of a response body into
`OauthTokenResponse`. -/
structure RefreshEnv where
  tokenRequested : Int
  claimNow : Int
  nonce : Except String String
  readKeyFile : Except String String
  parseKey : String → Except String String
  signedString : String → AssertionHeader → AssertionClaims →
    Except String String
  postForm : TokenRequestForm → Except String HttpResponse
  decodeToken : String → Except String OauthTokenResponse

/-- Go method `refreshAccessToken` (src/client.go lines 52-134), returning
the updated client together with the Go error (none on success).  Note
line 88 of the source: the error of `token.SignedString` is assigned but
never checked (line 96 reassigns `err`), so a signing failure leaves
`tokenString` at its zero value `""` and execution continues.  The cache
write at lines 130-131 is two successive field assignments, mirrored by two
successive record updates. -/
def refreshAccessToken (c : Client) (env : RefreshEnv) :
    Client × Option RefreshError :=
  match env.nonce with
  | .error e => (c, some (.nonceErr e))
  | .ok jwtNonce =>
    let hdr := assertionHeader c
    let clms := assertionClaims c jwtNonce env.claimNow
    match env.readKeyFile with
    | .error e => (c, some (.keyReadErr e))
    | .ok pem =>
      match env.parseKey pem with
      | .error e => (c, some (.keyParseErr e))
      | .ok privateKey =>
        let tokenString :=
          match env.signedString privateKey hdr clms with
          | .ok s => s
          | .error _ => ""
        match env.postForm
            ⟨c.GrantType, c.ClientID, c.clientSecret, tokenString⟩ with
        | .error e => (c, some (.transportErr e))
        | .ok res =>
          if res.statusCode ≠ 200 then
            (c, some (.tokenExchangeErr res.statusCode (trimSpace res.body)))
          else
            match env.decodeToken res.body with
            | .error e => (c, some (.jsonDecodeErr e))
            | .ok otr =>
              if otr.AccessToken = "" then
                (c, some (.emptyTokenErr res.body))
              else
                let c₁ := { c with lastToken := some otr }
                let c₂ :=
                  { c₁ with lastTokenRetrieved := some env.tokenRequested }
                (c₂, none)

/-- The part of Go's `http.Request` that `HttpDo` touches: the
`Authorization` header (`none` when absent). -/
structure Request where
  authHeader : Option String
  deriving DecidableEq, Repr

/-- `req.Header.Set("Authorization", fmt.Sprintf("Bearer %v", tok))`
(src/client.go lines 159 and 171). -/
def setAuth (req : Request) (tok : String) : Request :=
  { req with authHeader := some ("Bearer " ++ tok) }

/-- The dereference `c.lastToken.AccessToken` (src/client.go lines 159 and
171).  The `none` case is unreachable at every call site (`lastToken` has
just been checked or refreshed); on a nil pointer Go would panic there. -/
def currentAccessToken (c : Client) : String :=
  match c.lastToken with
  | some t => t.AccessToken
  | none => ""

/-- Models `time.ParseDuration(fmt.Sprintf("%ds", n))`
(src/client.go line 145).  Go's `ParseDuration` represents the result in
`int64` nanoseconds and rejects any magnitude outside that range: for a
whole number of seconds of either sign it succeeds exactly when the
magnitude is at most 9223372036 seconds (the floor of `(2^63 − 1) / 10^9`;
its overflow checks `v > (1<<63-1)/unit`, resp. `v > 1<<63/unit` in newer
Go, are applied to the magnitude before the sign), and returns the error
"time: invalid duration" otherwise.  The parsed duration is returned in
whole seconds. -/
def parseDurationSeconds (n : Int) : Except String Int :=
  if n.natAbs ≤ 9223372036 then .ok n
  else .error "time: invalid duration"

/-- One external event of an `HttpDo` call, in chronological order: a
`refreshAccessToken` invocation (recording whether it succeeded) or an
`http.DefaultClient.Do` invocation (recording the `Authorization` header of
the request handed to it). -/
inductive Ev where
  | refreshCall (ok : Bool)
  | sendCall (auth : Option String)
  deriving DecidableEq, Repr

/-- The three error returns of `HttpDo`: a failed `refreshAccessToken`
(lines 142, 152, 169), a failed `time.ParseDuration` (line 147), and a
failed `http.DefaultClient.Do` (lines 162 and 172). -/
inductive HttpDoError where
  | refreshFailed (e : RefreshError)
  | durationErr (msg : String)
  | transportErr (msg : String)
  deriving DecidableEq, Repr

/-- The observable outcome of one `HttpDo` call: the client state after the
call, the returned `(*http.Response, error)` pair, and the trace of external
events. -/
structure HttpDoResult where
  client : Client
  response : Option HttpResponse
  error : Option HttpDoError
  trace : List Ev
  deriving DecidableEq, Repr

/-- Outcomes of the external effects of one `HttpDo` call: `checkNow` is the
`time.Now()` of the expiry check (line 149), `renvA` the environment of the
proactive refresh (line 140 or 150), `sendA` the first
`http.DefaultClient.Do` (line 160), `renvB` the environment of the reactive
refresh after a 401 (line 167), and `sendB` the retry `Do` (line 172). -/
structure DoEnv where
  checkNow : Int
  renvA : RefreshEnv
  sendA : Request → Except String HttpResponse
  renvB : RefreshEnv
  sendB : Request → Except String HttpResponse

/-- src/client.go lines 158-175: attach the current token, perform the wire
request, and on a 401 refresh once unconditionally and retry once, returning
the retry's result as-is.  `tr` is the trace accumulated by the expiry
phase.  (Go's `Do` returns a `(resp, err)` pair; the error case is modelled
as `Except.error`, the source's `return resp, err` at line 162 carrying a
response only in redirect corner cases.) -/
def afterAuth (c : Client) (req : Request) (env : DoEnv) (tr : List Ev) :
    HttpDoResult :=
  let req1 := setAuth req (currentAccessToken c)
  match env.sendA req1 with
  | .error e =>
      ⟨c, none, some (.transportErr e), tr ++ [.sendCall req1.authHeader]⟩
  | .ok resp =>
    if resp.statusCode = 401 then
      match refreshAccessToken c env.renvB with
      | (c', some e) =>
          ⟨c', none, some (.refreshFailed e),
            tr ++ [.sendCall req1.authHeader, .refreshCall false]⟩
      | (c', none) =>
          let req2 := setAuth req1 (currentAccessToken c')
          match env.sendB req2 with
          | .error e =>
              ⟨c', none, some (.transportErr e),
                tr ++ [.sendCall req1.authHeader, .refreshCall true,
                       .sendCall req2.authHeader]⟩
          | .ok resp2 =>
              ⟨c', some resp2, none,
                tr ++ [.sendCall req1.authHeader, .refreshCall true,
                       .sendCall req2.authHeader]⟩
    else ⟨c, some resp, none, tr ++ [.sendCall req1.authHeader]⟩

/-- The refresh-or-abort block that src/client.go duplicates verbatim at
lines 140-143 and lines 150-154 (`err := c.refreshAccessToken(); if err !=
nil { return nil, err }`), followed by the attach-and-send tail of
lines 158-175. -/
def refreshThenSend (c : Client) (req : Request) (env : DoEnv) :
    HttpDoResult :=
  match refreshAccessToken c env.renvA with
  | (c', some e) => ⟨c', none, some (.refreshFailed e), [.refreshCall false]⟩
  | (c', none) => afterAuth c' req env [.refreshCall true]

/-- Go method `HttpDo` (src/client.go lines 136-176): refresh if no token is
cached, otherwise parse the safety-margin duration `ExpiresIn − 10` seconds
and refresh if `time.Now()` is strictly after the retrieval instant plus
that duration; then attach and send via `afterAuth`. -/
def HttpDo (c : Client) (req : Request) (env : DoEnv) : HttpDoResult :=
  match c.lastToken, c.lastTokenRetrieved with
  | some tok, some retrieved =>
    match parseDurationSeconds (tok.ExpiresIn - 10) with
    | .error e => ⟨c, none, some (.durationErr e), []⟩
    | .ok d =>
      if env.checkNow > retrieved + d then refreshThenSend c req env
      else afterAuth c req env []
  | _, _ => refreshThenSend c req env

/-- Whether an event is a `refreshAccessToken` invocation. -/
def Ev.isRefresh : Ev → Bool
  | .refreshCall _ => true
  | .sendCall _ => false

/-- Number of `refreshAccessToken` invocations recorded in a trace. -/
def refreshEvents (tr : List Ev) : Nat := (tr.filter Ev.isRefresh).length

/-- The refresh events preceding the first wire request of a trace. -/
def preAttach (tr : List Ev) : List Ev := tr.takeWhile Ev.isRefresh

/-- The `Authorization` header of the first wire request of a trace, when
one was sent. -/
def firstSendAuth : List Ev → Option (Option String)
  | [] => none
  | .refreshCall _ :: rest => firstSendAuth rest
  | .sendCall a :: _ => some a

/-- Runs a sequence of `HttpDo` calls, threading the client state, and
collects the concatenated event trace. -/
def runCalls (c : Client) : List (Request × DoEnv) → Client × List Ev
  | [] => (c, [])
  | (req, env) :: rest =>
    let r := HttpDo c req env
    let rec' := runCalls r.client rest
    (rec'.1, r.trace ++ rec'.2)

/-- The decoded shape of files.go's upload response.  Only its presence or
absence matters to the verified property; the JSON field structure
(src/files.go lines 25-183) is inert here and elided down to the leading
`total_count` field. -/
structure FileUploadResponse where
  TotalCount : Int
  deriving DecidableEq, Repr

/-- src/files.go lines 267-282: the handling of the HTTP response inside
`FileUploadFromPath` after `c.HttpDo` has returned, given the decoding
function `json.Unmarshal` provides for the body.  The condition of line 273
is the source's `resp.StatusCode != http.StatusOK || resp.StatusCode !=
http.StatusCreated`, and the error message is line 274's, built from
`resp.Status` and the body.  The Go function returns the pair
`(*FileUploadResponse, error)`. -/
def handleFileUploadResponse (resp : HttpResponse)
    (decode : String → Except String FileUploadResponse) :
    Option FileUploadResponse × Option String :=
  if resp.statusCode ≠ 200 ∨ resp.statusCode ≠ 201 then
    (none, some ("Unexpected status code while executing API request: " ++
      resp.status ++ ". Body: " ++ resp.body))
  else
    match decode resp.body with
    | .error e => (none, some e)
    | .ok fur => (some fur, none)

/-!  Theorems. -/

/-- C5: every assertion built by `refreshAccessToken` carries exactly the
claims issuer = client ID, subject = enterprise ID,
box_sub_type = "enterprise", audience = the fixed token endpoint URL,
jti = the freshly generated nonce value, and expiry = issuance time + 30
seconds — hence always at most 60 seconds past issuance — while the
signing-key identifier travels as the `kid` of the RS256 header, not as a
claim; assertions issued one second apart have different expiries. -/
theorem assertion_claims_exact (c : Client) (jwtNonce : String) (now : Int) :
    (assertionHeader c).alg = "RS256" ∧
    (assertionHeader c).kid = c.JWTKeyID ∧
    (assertionClaims c jwtNonce now).iss = c.ClientID ∧
    (assertionClaims c jwtNonce now).sub = c.EnterpriseID ∧
    (assertionClaims c jwtNonce now).boxSubType = "enterprise" ∧
    (assertionClaims c jwtNonce now).aud = APITokenURL ∧
    (assertionClaims c jwtNonce now).jti = jwtNonce ∧
    (assertionClaims c jwtNonce now).exp = now + 30 ∧
    (assertionClaims c jwtNonce now).exp ≤ now + 60 ∧
    ∀ n2, (assertionClaims c n2 (now + 1)).exp ≠
      (assertionClaims c jwtNonce now).exp := by
  refine ⟨rfl, rfl, rfl, rfl, rfl, rfl, rfl, rfl, ?_, ?_⟩
  · simp only [assertionClaims]
    omega
  · intro n2
    simp only [assertionClaims]
    omega

/-- C3: whenever the token endpoint answers with a non-success HTTP status,
`refreshAccessToken` fails with the token-exchange error carrying that
status code and the (trimmed) response body; whenever it answers 200 with a
body that decodes to an empty access token it fails with the empty-token
error carrying the body; in both cases the client — and so the cached
token — is returned unchanged. -/
theorem refresh_exchange_and_empty_token_errors
    (c : Client) (env : RefreshEnv) (n pem key : String)
    (resp : HttpResponse)
    (hn : env.nonce = .ok n) (hk : env.readKeyFile = .ok pem)
    (hp : env.parseKey pem = .ok key)
    (hPost : ∀ f, env.postForm f = .ok resp) :
    (¬ (200 ≤ resp.statusCode ∧ resp.statusCode < 300) →
      refreshAccessToken c env =
        (c, some (.tokenExchangeErr resp.statusCode (trimSpace resp.body)))) ∧
    (∀ otr, resp.statusCode = 200 → env.decodeToken resp.body = .ok otr →
      otr.AccessToken = "" →
      refreshAccessToken c env = (c, some (.emptyTokenErr resp.body))) := by
  constructor
  · intro hns
    have h200 : resp.statusCode ≠ 200 := by
      intro h
      exact hns ⟨le_of_eq h.symm, by omega⟩
    simp only [refreshAccessToken, hn, hk, hp, hPost, if_pos h200]
  · intro otr h200 hdec hempty
    simp [refreshAccessToken, hn, hk, hp, hPost, h200, hdec, hempty]

/-- C4: the cached token state survives every failure of
`refreshAccessToken` untouched — the returned client is exactly the input
client whenever an error is returned — and on success both `lastToken` and
`lastTokenRetrieved` are replaced together, with a non-empty access token
and the entry-time instant. -/
theorem refresh_cache_all_or_nothing (c : Client) (env : RefreshEnv) :
    (∀ c' e, refreshAccessToken c env = (c', some e) → c' = c) ∧
    (∀ c', refreshAccessToken c env = (c', none) →
      ∃ otr, otr.AccessToken ≠ "" ∧
        c' = { c with lastToken := some otr,
                      lastTokenRetrieved := some env.tokenRequested }) := by
  constructor
  · intro c' e h
    simp only [refreshAccessToken] at h
    repeat' split at h
    all_goals injection h with h1 h2
    all_goals first
      | exact h1.symm
      | exact Option.noConfusion h2
  · intro c' h
    simp only [refreshAccessToken] at h
    repeat' split at h
    all_goals injection h with h1 h2
    all_goals try exact Option.noConfusion h2
    rename_i otr heq hne
    exact ⟨otr, hne, h1.symm⟩

/-- C7 (amended): `NewClient` performs no validation at all: for every
input — missing or invalid identity fields included — it returns a client
holding exactly the given fields, the package default grant type and base
URL, and an empty token cache, together with a nil error; no configuration
error is ever produced at construction. -/
theorem newClient_never_fails (a b d e f : String) :
    NewClient a b d e f =
      ({ ClientID := a, clientSecret := b, EnterpriseID := d, JWTKeyID := e,
         RSAPrivateKeyPemFilePath := f, GrantType := GrantType,
         APIBaseURL := APIBaseURL, lastToken := none,
         lastTokenRetrieved := none }, none) := rfl

/-- C7 counterexample: constructing a client with every identity field empty
returns a nil error (and hence a client), not a configuration error as the
claim requires. -/
theorem newClient_accepts_empty_fields :
    (NewClient "" "" "" "" "").2 = none := rfl

/-- C10: the status guard at src/files.go line 273 is a tautology, so for
every HTTP response — statuses 200 and 201 included — `FileUploadFromPath`
returns a nil `FileUploadResponse` together with the "Unexpected status
code" error, and can never return a parsed upload response. -/
theorem fileUpload_guard_always_errors (resp : HttpResponse)
    (decode : String → Except String FileUploadResponse) :
    handleFileUploadResponse resp decode =
      (none, some ("Unexpected status code while executing API request: " ++
        resp.status ++ ". Body: " ++ resp.body)) := by
  unfold handleFileUploadResponse
  rcases eq_or_ne resp.statusCode 200 with h | h
  · rw [if_pos (Or.inr (by rw [h]; decide))]
  · rw [if_pos (Or.inl h)]

/-- A successful duration parse returns exactly its input. -/
theorem parseDurationSeconds_ok_inv {n d : Int}
    (h : parseDurationSeconds n = .ok d) : d = n := by
  unfold parseDurationSeconds at h
  split at h
  · injection h with h1
    exact h1.symm
  · exact Except.noConfusion h

/-- Refresh counting distributes over trace concatenation. -/
theorem refreshEvents_append (l1 l2 : List Ev) :
    refreshEvents (l1 ++ l2) = refreshEvents l1 + refreshEvents l2 := by
  simp [refreshEvents, List.filter_append]

/-- A trace beginning with a wire request has no refresh before the first
request. -/
theorem preAttach_sendCons (a : Option String) (l : List Ev) :
    preAttach (.sendCall a :: l) = [] := by
  simp [preAttach, List.takeWhile, Ev.isRefresh]

/-- A leading refresh event stays in the pre-attach prefix. -/
theorem preAttach_refreshCons (b : Bool) (l : List Ev) :
    preAttach (.refreshCall b :: l) = .refreshCall b :: preAttach l := by
  simp [preAttach, List.takeWhile, Ev.isRefresh]

/-- `afterAuth` always starts its trace contribution with a wire request
carrying the bearer of the client's current token. -/
theorem afterAuth_trace (c : Client) (req : Request) (env : DoEnv)
    (tr : List Ev) :
    ∃ rest, (afterAuth c req env tr).trace =
      tr ++ .sendCall (some ("Bearer " ++ currentAccessToken c)) :: rest := by
  unfold afterAuth
  rcases hs : env.sendA (setAuth req (currentAccessToken c)) with e | resp <;>
    simp only [hs]
  · exact ⟨[], by simp [setAuth]⟩
  · split
    · rcases hr : refreshAccessToken c env.renvB with ⟨c', err⟩
      rcases err with _ | e <;> simp only [hr]
      · rcases hs2 : env.sendB (setAuth (setAuth req (currentAccessToken c))
            (currentAccessToken c')) with e2 | resp2 <;> simp only [hs2]
        · exact ⟨[.refreshCall true, .sendCall (some ("Bearer " ++
            currentAccessToken c'))], by simp [setAuth]⟩
        · exact ⟨[.refreshCall true, .sendCall (some ("Bearer " ++
            currentAccessToken c'))], by simp [setAuth]⟩
      · exact ⟨[.refreshCall false], by simp [setAuth]⟩
    · exact ⟨[], by simp [setAuth]⟩

/-- When a refresh precedes the send (lines 140-143 / 150-154 followed by
lines 158-175): exactly one refresh happens before the token is attached,
and if a wire request goes out at all, it carries the bearer of the token
the successful refresh installed. -/
theorem refreshThenSend_spec (c : Client) (req : Request) (env : DoEnv) :
    refreshEvents (preAttach (refreshThenSend c req env).trace) = 1 ∧
    ∀ a, firstSendAuth (refreshThenSend c req env).trace = some a →
      ∃ c', refreshAccessToken c env.renvA = (c', none) ∧
        a = some ("Bearer " ++ currentAccessToken c') := by
  unfold refreshThenSend
  rcases hr : refreshAccessToken c env.renvA with ⟨c', err⟩
  rcases err with _ | e <;> simp only [hr]
  · obtain ⟨rest, hrest⟩ := afterAuth_trace c' req env [.refreshCall true]
    rw [hrest]
    constructor
    · simp [preAttach_refreshCons, preAttach_sendCons, refreshEvents,
        Ev.isRefresh]
    · intro a ha
      simp only [List.cons_append, List.nil_append, firstSendAuth] at ha
      injection ha with ha
      exact ⟨c', rfl, ha.symm⟩
  · constructor
    · simp [preAttach_refreshCons, refreshEvents, Ev.isRefresh, preAttach]
    · intro a ha
      simp [firstSendAuth] at ha

/-- C1 (amended): `HttpDo` attaches a bearer token only when the cached
token is present and its deadline — retrieval instant plus
(ExpiresIn − 10) seconds — has not strictly passed, or immediately after a
refresh has just succeeded.  When the cache is absent, or the deadline has
strictly passed and ExpiresIn − 10 lies within the range
`time.ParseDuration` can represent, exactly one refresh is performed before
the token is attached, and the attached value is the refreshed token;
when the deadline has not strictly passed, no refresh precedes the send and
the cached token is attached. -/
theorem httpDo_attach_policy (c : Client) (req : Request) (env : DoEnv) :
    ((c.lastToken = none ∨ c.lastTokenRetrieved = none) →
      refreshEvents (preAttach (HttpDo c req env).trace) = 1 ∧
      ∀ a, firstSendAuth (HttpDo c req env).trace = some a →
        ∃ c', refreshAccessToken c env.renvA = (c', none) ∧
          a = some ("Bearer " ++ currentAccessToken c')) ∧
    (∀ tok t, c.lastToken = some tok → c.lastTokenRetrieved = some t →
      (tok.ExpiresIn - 10).natAbs ≤ 9223372036 →
      env.checkNow > t + (tok.ExpiresIn - 10) →
      refreshEvents (preAttach (HttpDo c req env).trace) = 1 ∧
      ∀ a, firstSendAuth (HttpDo c req env).trace = some a →
        ∃ c', refreshAccessToken c env.renvA = (c', none) ∧
          a = some ("Bearer " ++ currentAccessToken c')) ∧
    (∀ tok t, c.lastToken = some tok → c.lastTokenRetrieved = some t →
      (tok.ExpiresIn - 10).natAbs ≤ 9223372036 →
      ¬ env.checkNow > t + (tok.ExpiresIn - 10) →
      refreshEvents (preAttach (HttpDo c req env).trace) = 0 ∧
      firstSendAuth (HttpDo c req env).trace =
        some (some ("Bearer " ++ tok.AccessToken))) := by
  refine ⟨?_, ?_, ?_⟩
  · intro hAbsent
    have hDo : HttpDo c req env = refreshThenSend c req env := by
      unfold HttpDo
      rcases hTok : c.lastToken with _ | tok
      · rfl
      · rcases hT : c.lastTokenRetrieved with _ | t
        · rfl
        · rcases hAbsent with h | h
          · exact absurd (hTok ▸ h) (by simp)
          · exact absurd (hT ▸ h) (by simp)
    rw [hDo]
    exact refreshThenSend_spec c req env
  · intro tok t hTok hT hBound hPassed
    have hDo : HttpDo c req env = refreshThenSend c req env := by
      unfold HttpDo
      rw [hTok, hT]
      have hok : parseDurationSeconds (tok.ExpiresIn - 10) =
          .ok (tok.ExpiresIn - 10) := by
        unfold parseDurationSeconds
        rw [if_pos hBound]
      simp only [hok]
      rw [if_pos hPassed]
    rw [hDo]
    exact refreshThenSend_spec c req env
  · intro tok t hTok hT hBound hFresh
    have hDo : HttpDo c req env = afterAuth c req env [] := by
      unfold HttpDo
      rw [hTok, hT]
      have hok : parseDurationSeconds (tok.ExpiresIn - 10) =
          .ok (tok.ExpiresIn - 10) := by
        unfold parseDurationSeconds
        rw [if_pos hBound]
      simp only [hok]
      rw [if_neg hFresh]
    have hcur : currentAccessToken c = tok.AccessToken := by
      simp [currentAccessToken, hTok]
    obtain ⟨rest, hrest⟩ := afterAuth_trace c req env []
    rw [hDo, hrest, hcur]
    constructor
    · simp [preAttach_sendCons, refreshEvents]
    · simp [firstSendAuth]

/-- C2: if the wire request returns status 401, `afterAuth` (the attach-send
tail of `HttpDo`, src/client.go lines 158-175) performs exactly one
unconditional refresh; when that refresh succeeds, exactly one retry of the
original request is sent carrying the new token, and the retry's result —
success or transport failure, a second 401 included — is returned as-is with
no further request; when the refresh fails, its error is returned and no
retry is sent. -/
theorem httpDo_unauthorized_single_retry (c : Client) (req : Request)
    (env : DoEnv) (tr : List Ev) (resp : HttpResponse)
    (hSend : env.sendA (setAuth req (currentAccessToken c)) = .ok resp)
    (h401 : resp.statusCode = 401) :
    (∀ c', refreshAccessToken c env.renvB = (c', none) →
      (afterAuth c req env tr).client = c' ∧
      (afterAuth c req env tr).trace =
        tr ++ [.sendCall (some ("Bearer " ++ currentAccessToken c)),
               .refreshCall true,
               .sendCall (some ("Bearer " ++ currentAccessToken c'))] ∧
      (∀ resp2, env.sendB (setAuth (setAuth req (currentAccessToken c))
          (currentAccessToken c')) = .ok resp2 →
        (afterAuth c req env tr).response = some resp2 ∧
        (afterAuth c req env tr).error = none) ∧
      (∀ e, env.sendB (setAuth (setAuth req (currentAccessToken c))
          (currentAccessToken c')) = .error e →
        (afterAuth c req env tr).response = none ∧
        (afterAuth c req env tr).error = some (.transportErr e))) ∧
    (∀ c' e, refreshAccessToken c env.renvB = (c', some e) →
      (afterAuth c req env tr).client = c' ∧
      (afterAuth c req env tr).response = none ∧
      (afterAuth c req env tr).error = some (.refreshFailed e) ∧
      (afterAuth c req env tr).trace =
        tr ++ [.sendCall (some ("Bearer " ++ currentAccessToken c)),
               .refreshCall false]) := by
  constructor
  · intro c' hr
    rcases hs2 : env.sendB (setAuth (setAuth req (currentAccessToken c))
        (currentAccessToken c')) with e2 | resp2
    · have h : afterAuth c req env tr =
          ⟨c', none, some (.transportErr e2),
            tr ++ [.sendCall (some ("Bearer " ++ currentAccessToken c)),
                   .refreshCall true,
                   .sendCall (some ("Bearer " ++ currentAccessToken c'))]⟩ := by
        unfold afterAuth
        simp only [hSend, hr, hs2, h401]
        simp [setAuth]
      rw [h]
      refine ⟨rfl, rfl, ?_, ?_⟩
      · intro r2 hok
        exact Except.noConfusion hok
      · intro e he
        have h2 := Except.error.inj he
        subst h2
        exact ⟨rfl, rfl⟩
    · have h : afterAuth c req env tr =
          ⟨c', some resp2, none,
            tr ++ [.sendCall (some ("Bearer " ++ currentAccessToken c)),
                   .refreshCall true,
                   .sendCall (some ("Bearer " ++ currentAccessToken c'))]⟩ := by
        unfold afterAuth
        simp only [hSend, hr, hs2, h401]
        simp [setAuth]
      rw [h]
      refine ⟨rfl, rfl, ?_, ?_⟩
      · intro r2 hok
        have h2 := Except.ok.inj hok
        subst h2
        exact ⟨rfl, rfl⟩
      · intro e he
        exact Except.noConfusion he
  · intro c' e hr
    have h : afterAuth c req env tr =
        ⟨c', none, some (.refreshFailed e),
          tr ++ [.sendCall (some ("Bearer " ++ currentAccessToken c)),
                 .refreshCall false]⟩ := by
      unfold afterAuth
      simp only [hSend, hr, h401]
      simp [setAuth]
    rw [h]
    exact ⟨rfl, rfl, rfl, rfl⟩

/-- When the wire request does not come back 401, the attach-send tail
performs no refresh and leaves the client untouched. -/
theorem afterAuth_no401 (c : Client) (req : Request) (env : DoEnv)
    (tr : List Ev)
    (hNo401 : ∀ resp, env.sendA (setAuth req (currentAccessToken c)) =
      .ok resp → resp.statusCode ≠ 401) :
    (afterAuth c req env tr).client = c ∧
    (afterAuth c req env tr).trace =
      tr ++ [.sendCall (some ("Bearer " ++ currentAccessToken c))] := by
  unfold afterAuth
  rcases hs : env.sendA (setAuth req (currentAccessToken c)) with e | resp <;>
    simp only [hs]
  · exact ⟨by trivial, by simp [setAuth]⟩
  · rw [if_neg (hNo401 resp hs)]
    exact ⟨by trivial, by simp [setAuth]⟩

/-- One `HttpDo` call made while the cached token is within its validity
window and whose wire request does not come back 401 performs no refresh and
leaves the client untouched. -/
theorem httpDo_step_no_refresh (c : Client) (tok : OauthTokenResponse)
    (t : Int) (req : Request) (env : DoEnv)
    (hTok : c.lastToken = some tok) (hT : c.lastTokenRetrieved = some t)
    (hWin : ¬ env.checkNow > t + (tok.ExpiresIn - 10))
    (hNo401 : ∀ resp, env.sendA (setAuth req tok.AccessToken) = .ok resp →
      resp.statusCode ≠ 401) :
    (HttpDo c req env).client = c ∧
    refreshEvents (HttpDo c req env).trace = 0 := by
  have hcur : currentAccessToken c = tok.AccessToken := by
    simp [currentAccessToken, hTok]
  rw [← hcur] at hNo401
  unfold HttpDo
  rw [hTok, hT]
  rcases hpd : parseDurationSeconds (tok.ExpiresIn - 10) with e | d <;>
    simp only [hpd]
  · exact ⟨by trivial, rfl⟩
  · have hd : d = tok.ExpiresIn - 10 := parseDurationSeconds_ok_inv hpd
    subst hd
    rw [if_neg hWin]
    obtain ⟨hc, htr⟩ := afterAuth_no401 c req env [] hNo401
    rw [hc, htr]
    exact ⟨rfl, by simp [refreshEvents, Ev.isRefresh]⟩

/-- C6 (amended): across every sequence of `HttpDo` calls made while the
cached token remains within its validity window (each call's clock reading
not strictly past retrieval + (ExpiresIn − 10) seconds), `refreshAccessToken`
is never invoked — in particular at most once — provided no wrapped request
returns status 401; an unconditional reactive refresh follows every 401
regardless of the window. -/
theorem refresh_at_most_once_within_validity (c : Client)
    (tok : OauthTokenResponse) (t : Int) (calls : List (Request × DoEnv))
    (hTok : c.lastToken = some tok) (hT : c.lastTokenRetrieved = some t)
    (hAll : ∀ p ∈ calls,
      ¬ p.2.checkNow > t + (tok.ExpiresIn - 10) ∧
      ∀ resp, p.2.sendA (setAuth p.1 tok.AccessToken) = .ok resp →
        resp.statusCode ≠ 401) :
    (runCalls c calls).1 = c ∧ refreshEvents (runCalls c calls).2 = 0 := by
  induction calls with
  | nil => exact ⟨rfl, rfl⟩
  | cons p rest ih =>
    obtain ⟨req, env⟩ := p
    obtain ⟨hWin, hNo401⟩ := hAll (req, env) (List.mem_cons_self _ _)
    obtain ⟨hc, he⟩ :=
      httpDo_step_no_refresh c tok t req env hTok hT hWin hNo401
    have hrest := ih (fun p hp => hAll p (List.mem_cons_of_mem _ hp))
    simp only [runCalls, hc]
    refine ⟨hrest.1, ?_⟩
    rw [refreshEvents_append, he, hrest.2]

/-- C9 (amended): if the cached token's ExpiresIn is at most 10 while
staying within the representable duration range (ExpiresIn ≥ −9223372026),
every strictly later `HttpDo` call treats it as already expired: the
duration parse succeeds, the computed margin is zero or negative, the expiry
test succeeds, and exactly one refresh is performed before the request is
sent.  (Outside that range — reachable only for ExpiresIn − 10 beyond
±9223372036 seconds — `time.ParseDuration` fails and `HttpDo` does fail on
that branch.) -/
theorem expired_margin_forces_refresh (c : Client)
    (tok : OauthTokenResponse) (t : Int) (req : Request) (env : DoEnv)
    (hTok : c.lastToken = some tok) (hT : c.lastTokenRetrieved = some t)
    (hSmall : tok.ExpiresIn ≤ 10) (hRange : -9223372026 ≤ tok.ExpiresIn)
    (hNow : t < env.checkNow) :
    parseDurationSeconds (tok.ExpiresIn - 10) = .ok (tok.ExpiresIn - 10) ∧
    tok.ExpiresIn - 10 ≤ 0 ∧
    env.checkNow > t + (tok.ExpiresIn - 10) ∧
    HttpDo c req env = refreshThenSend c req env ∧
    refreshEvents (preAttach (HttpDo c req env).trace) = 1 := by
  have hBound : (tok.ExpiresIn - 10).natAbs ≤ 9223372036 := by omega
  have hok : parseDurationSeconds (tok.ExpiresIn - 10) =
      .ok (tok.ExpiresIn - 10) := by
    unfold parseDurationSeconds
    rw [if_pos hBound]
  have hPassed : env.checkNow > t + (tok.ExpiresIn - 10) := by omega
  have hDo : HttpDo c req env = refreshThenSend c req env := by
    unfold HttpDo
    rw [hTok, hT]
    simp only [hok]
    rw [if_pos hPassed]
  refine ⟨hok, by omega, hPassed, hDo, ?_⟩
  rw [hDo]
  exact (refreshThenSend_spec c req env).1

/-!  Concrete fixtures used by the witnesses and counterexamples below. -/

/-- A client fresh out of `NewClient`. -/
def clientW : Client := (NewClient "id" "secret" "ent" "kid" "key.pem").1

/-- A request with no Authorization header, as the resource methods build
them. -/
def reqW : Request := ⟨none⟩

/-- A token as the endpoint customarily answers: one hour lifetime. -/
def tokA : OauthTokenResponse := ⟨"tokA", 3600, [], "bearer"⟩

/-- The token installed by a successful refresh through `envRefreshOk`. -/
def tokB : OauthTokenResponse := ⟨"tokB", 3600, [], "bearer"⟩

/-- `clientW` holding `tokA` retrieved at instant 0. -/
def clientTokW : Client :=
  { clientW with lastToken := some tokA, lastTokenRetrieved := some 0 }

/-- `clientTokW` after a successful refresh through `envRefreshOk`. -/
def clientTokW2 : Client :=
  { clientTokW with lastToken := some tokB, lastTokenRetrieved := some 6 }

/-- A refresh environment in which every external effect succeeds and the
endpoint answers 200 with a body decoding to `tokB`. -/
def envRefreshOk : RefreshEnv :=
  { tokenRequested := 6
    claimNow := 6
    nonce := .ok "nonce-0123456789abcdef"
    readKeyFile := .ok "PEM"
    parseKey := fun _ => .ok "KEY"
    signedString := fun _ _ _ => .ok "signed"
    postForm := fun _ => .ok ⟨200, "200 OK", "tokenbody"⟩
    decodeToken := fun _ => .ok tokB }

/-- A 500 answer from the token endpoint. -/
def resp500 : HttpResponse := ⟨500, "500 Internal Server Error", "oops"⟩

/-- A refresh environment whose endpoint answers HTTP 500. -/
def envRefresh500 : RefreshEnv :=
  { envRefreshOk with postForm := fun _ => .ok resp500 }

/-- A 401 answer from the resource API. -/
def resp401 : HttpResponse := ⟨401, "401 Unauthorized", ""⟩

/-- A 200 answer from the resource API. -/
def resp200 : HttpResponse := ⟨200, "200 OK", "payload"⟩

/-- An `HttpDo` environment whose first wire request is answered 401 and
whose retry is answered 200; refreshes succeed via `envRefreshOk`. -/
def envDo401 : DoEnv :=
  { checkNow := 5
    renvA := envRefreshOk
    sendA := fun _ => .ok resp401
    renvB := envRefreshOk
    sendB := fun _ => .ok resp200 }

/-- An `HttpDo` environment whose wire requests are answered 200. -/
def envDo200 : DoEnv :=
  { envDo401 with sendA := fun _ => .ok resp200 }

/-- A later 401-answering environment for a second call (clock at 7). -/
def envDo401b : DoEnv :=
  { envDo401 with checkNow := 7, renvB := envRefreshOk }

/-- A token with a lifetime below the 10-second safety margin. -/
def tokTen : OauthTokenResponse := ⟨"tokT", 5, [], "bearer"⟩

/-- `clientW` holding `tokTen` retrieved at instant 0. -/
def clientTen : Client :=
  { clientW with lastToken := some tokTen, lastTokenRetrieved := some 0 }

/-- A token whose ExpiresIn is so negative that the safety-margin duration
overflows the int64-nanosecond range of `time.ParseDuration`. -/
def tokHugeNeg : OauthTokenResponse := ⟨"tok", -20000000000, [], "bearer"⟩

/-- `clientW` holding `tokHugeNeg` retrieved at instant 0. -/
def clientHugeNeg : Client :=
  { clientW with lastToken := some tokHugeNeg, lastTokenRetrieved := some 0 }

/-- A token whose deadline (retrieval + (ExpiresIn − 10)s) falls exactly on
the clock reading of `envBound`. -/
def tokBound : OauthTokenResponse := ⟨"tokC", 3610, [], "bearer"⟩

/-- `clientW` holding `tokBound` retrieved at instant 0. -/
def clientBound : Client :=
  { clientW with lastToken := some tokBound, lastTokenRetrieved := some 0 }

/-- An environment whose clock reads exactly the deadline of `tokBound`
retrieved at 0, with all wire requests answered 200. -/
def envBound : DoEnv := { envDo200 with checkNow := 3600 }

/-- A token with ExpiresIn ≤ 10 whose magnitude is beyond the representable
duration range. -/
def tokC9 : OauthTokenResponse := ⟨"tok", -10000000000, [], "bearer"⟩

/-- `clientW` holding `tokC9` retrieved at instant 0. -/
def clientC9 : Client :=
  { clientW with lastToken := some tokC9, lastTokenRetrieved := some 0 }

/-!  Witnesses and counterexamples. -/

/-- C3 witness: with a mocked token endpoint answering HTTP 500, the
concrete refresh fails with the exchange error carrying status 500 and the
body, and the client comes back unchanged. -/
theorem refresh_exchange_error_witness :
    refreshAccessToken clientW envRefresh500 =
      (clientW, some (.tokenExchangeErr 500 "oops")) := by
  have h := (refresh_exchange_and_empty_token_errors clientW envRefresh500
    "nonce-0123456789abcdef" "PEM" "KEY" resp500 rfl rfl rfl
    (fun _ => rfl)).1 (by decide)
  rw [h]
  simp only [resp500]
  decide

/-- C4 witness: a fully successful concrete refresh replaces both cache
fields together, with a non-empty access token and the entry instant. -/
theorem refresh_cache_all_or_nothing_witness :
    ∃ otr, otr.AccessToken ≠ "" ∧
      (refreshAccessToken clientW envRefreshOk).1 =
        { clientW with
            lastToken := some otr
            lastTokenRetrieved := some envRefreshOk.tokenRequested } :=
  (refresh_cache_all_or_nothing clientW envRefreshOk).2
    (refreshAccessToken clientW envRefreshOk).1 rfl

/-- C1 witness: with a cached token retrieved at 0 and the clock at 5, the
concrete `HttpDo` call refreshes nothing before attaching and sends the
cached bearer token. -/
theorem httpDo_attach_policy_witness :
    refreshEvents (preAttach (HttpDo clientTokW reqW envDo200).trace) = 0 ∧
    firstSendAuth (HttpDo clientTokW reqW envDo200).trace =
      some (some ("Bearer " ++ tokA.AccessToken)) :=
  (httpDo_attach_policy clientTokW reqW envDo200).2.2 tokA 0 rfl rfl
    (by decide) (by decide)

/-- C2 witness: a concrete 401 answer triggers one refresh and one retry
whose 200 result is returned as-is. -/
theorem httpDo_unauthorized_single_retry_witness :
    (afterAuth clientTokW reqW envDo401 []).response = some resp200 ∧
    (afterAuth clientTokW reqW envDo401 []).error = none :=
  ((httpDo_unauthorized_single_retry clientTokW reqW envDo401 [] resp401
    rfl rfl).1 clientTokW2 rfl).2.2.1 resp200 rfl

/-- C6 witness: one concrete call inside the validity window answered 200
leaves the client untouched and performs no refresh. -/
theorem refresh_at_most_once_within_validity_witness :
    (runCalls clientTokW [(reqW, envDo200)]).1 = clientTokW ∧
    refreshEvents (runCalls clientTokW [(reqW, envDo200)]).2 = 0 :=
  refresh_at_most_once_within_validity clientTokW tokA 0 [(reqW, envDo200)]
    rfl rfl (by
      intro p hp
      simp only [List.mem_singleton] at hp
      subst hp
      refine ⟨by decide, ?_⟩
      intro resp h
      injection h with h
      subst h
      decide)

/-- C9 witness: with ExpiresIn = 5 the concrete margin is −5 seconds, the
parse succeeds, the expiry test fires, and exactly one refresh precedes the
send. -/
theorem expired_margin_forces_refresh_witness :
    parseDurationSeconds (tokTen.ExpiresIn - 10) =
      .ok (tokTen.ExpiresIn - 10) ∧
    tokTen.ExpiresIn - 10 ≤ 0 ∧
    envDo200.checkNow > 0 + (tokTen.ExpiresIn - 10) ∧
    HttpDo clientTen reqW envDo200 = refreshThenSend clientTen reqW envDo200 ∧
    refreshEvents (preAttach (HttpDo clientTen reqW envDo200).trace) = 1 :=
  expired_margin_forces_refresh clientTen tokTen 0 reqW envDo200 rfl rfl
    (by decide) (by decide) (by decide)

/-- C1 counterexample.  First scenario: the cached token is present and its
deadline (retrieval 0 plus (−20000000000 − 10) seconds) has long passed at
clock 3600, yet `HttpDo` performs no refresh and attaches nothing — it
fails with the duration-parse error — contradicting "exactly one refresh is
performed before the token is attached".  Second scenario: the clock reads
exactly the deadline, which is therefore not still in the future, yet the
cached token is attached with no refresh — contradicting "attaches … only
when … still in the future, or immediately after a refresh". -/
theorem httpDo_attach_policy_counterexample :
    (clientHugeNeg.lastToken = some tokHugeNeg ∧
     clientHugeNeg.lastTokenRetrieved = some 0 ∧
     envBound.checkNow > 0 + (tokHugeNeg.ExpiresIn - 10) ∧
     (HttpDo clientHugeNeg reqW envBound).trace = [] ∧
     (HttpDo clientHugeNeg reqW envBound).error =
       some (.durationErr "time: invalid duration")) ∧
    (clientBound.lastToken = some tokBound ∧
     clientBound.lastTokenRetrieved = some 0 ∧
     envBound.checkNow = 0 + (tokBound.ExpiresIn - 10) ∧
     (HttpDo clientBound reqW envBound).trace =
       [.sendCall (some ("Bearer " ++ tokBound.AccessToken))] ∧
     refreshEvents (HttpDo clientBound reqW envBound).trace = 0) := by
  constructor
  · exact ⟨rfl, rfl, by decide, rfl, rfl⟩
  · exact ⟨rfl, rfl, by decide, rfl, rfl⟩

/-- C6 counterexample: two consecutive `HttpDo` calls, each made within the
validity window of the then-cached token, are each answered 401 by the
wrapped request; each triggers one unconditional reactive refresh, so the
sequence performs two refreshes — not at most one — refuting "regardless of
the statuses the wrapped requests return". -/
theorem two_unauthorized_calls_two_refreshes :
    clientTokW.lastToken = some tokA ∧
    clientTokW.lastTokenRetrieved = some 0 ∧
    ¬ envDo401.checkNow > 0 + (tokA.ExpiresIn - 10) ∧
    (HttpDo clientTokW reqW envDo401).client = clientTokW2 ∧
    clientTokW2.lastToken = some tokB ∧
    clientTokW2.lastTokenRetrieved = some 6 ∧
    ¬ envDo401b.checkNow > 6 + (tokB.ExpiresIn - 10) ∧
    refreshEvents
      (runCalls clientTokW [(reqW, envDo401), (reqW, envDo401b)]).2 = 2 := by
  exact ⟨rfl, rfl, by decide, rfl, rfl, rfl, by decide, rfl⟩

/-- C9 counterexample: for ExpiresIn = −10000000000 (which is at most 10),
the duration-parsing step of the expiry check does return an error, so
`HttpDo` fails on that branch and performs no refresh at all — refuting
both "the duration-parsing step never returns an error for any integer
ExpiresIn" and "exactly one refresh is performed". -/
theorem duration_parse_error_counterexample :
    tokC9.ExpiresIn ≤ 10 ∧
    parseDurationSeconds (tokC9.ExpiresIn - 10) =
      .error "time: invalid duration" ∧
    (HttpDo clientC9 reqW envDo200).error =
      some (.durationErr "time: invalid duration") ∧
    refreshEvents (HttpDo clientC9 reqW envDo200).trace = 0 :=
  ⟨by decide, rfl, rfl, rfl⟩

end Box
